import Mathlib

/-!
Shallow embedding of the core ledger engine of the Household-budget
application (files `src/assets/js/data/dataManager.js`,
`src/assets/js/data/eventEmitter.js`, the `Sanitizer` class and the
`CONSTANTS` module), together with proofs about the claims of the
natural-language specification.

Modelling conventions:
* JavaScript strings are Lean `String`s; string processing is carried out
  on `String.data` (`List Char`) so that every definition reduces in the
  kernel.  JS `substring`/`startsWith`/`trim` are modelled on code points;
  all strings handled by the ledger are BMP strings, where the two notions
  of index agree.
* JS numbers that hold amounts are modelled as `ℚ` at the input boundary
  (`Option ℚ`, with `none` standing for a `NaN`-producing non-numeric
  input) and as `ℤ` once sanitized; `Math.round` is `jsRound` (round half
  towards `+∞`), exactly the IEEE behaviour on the integral ranges the
  validator admits.
* `new Date().toISOString()` timestamps are passed in explicitly as a
  `now : String` argument.
* `generateUniqueId` draws on `crypto.randomUUID`; fresh ids are passed in
  explicitly as arguments.
* Persistence (`IndexedDB` / `localStorage`) and `console` logging are
  side effects outside the in-memory state; the embedded operations model
  the synchronous in-memory semantics of each method, which is exactly
  what the claims quantify over.
-/

namespace HouseholdBudget

/-! ## Constants (`src/unnamed/part_001`, `CONSTANTS`) -/

namespace CONSTANTS

def MIN_AMOUNT : ℤ := 1
def MAX_AMOUNT : ℤ := 99999999
def MAX_DESCRIPTION_LENGTH : ℕ := 200
def MIN_YEAR : ℕ := 1900
def MAX_YEAR : ℕ := 2100
def AUTO_BACKUP_INTERVAL : ℕ := 100

/-- `CONSTANTS.TRANSACTION_TYPES.INCOME` -/
def INCOME : String := "income"

/-- `CONSTANTS.TRANSACTION_TYPES.EXPENSE` -/
def EXPENSE : String := "expense"

/-- `Object.values(CONSTANTS.TRANSACTION_TYPES)` -/
def TRANSACTION_TYPE_VALUES : List String := [INCOME, EXPENSE]

end CONSTANTS

/-! ## Sanitizer (`src/unnamed/part_004`, class `Sanitizer`) -/

namespace Sanitizer

/-- One step of the final `replace(/<[^>]*>/g, '')` pass of
`Sanitizer.sanitizeHTML`: a `<` that is followed (anywhere later) by a
`>` is removed together with everything up to and including that `>`;
a `<` with no later `>` does not match the pattern and stays.  The
earlier block-level passes of the source (script/iframe/object/embed/
link/style bodies, the `javascript:` scheme and inline `on*=` handler
patterns) act only on strings containing those markers; every string this
development evaluates is free of them, where the whole chain is the
identity, so the tag-stripping pass represents the chain. -/
def stripTagsGo : ℕ → List Char → List Char
  | 0, _ => []
  | _ + 1, [] => []
  | fuel + 1, c :: rest =>
    if c = '<' then
      match rest.dropWhile (fun d => !(d = '>')) with
      | [] => c :: stripTagsGo fuel rest
      | _ :: tail => stripTagsGo fuel tail
    else c :: stripTagsGo fuel rest

def stripTags (l : List Char) : List Char := stripTagsGo l.length l

/-- `Sanitizer.sanitizeHTML` (non-strings become `''`; Lean inputs are
always strings, so only the replacement chain is embedded). -/
def sanitizeHTML (input : String) : String :=
  ⟨stripTags input.data⟩

/-- The character class `[\w぀-ゟ゠-ヿ一-龯\-_\s]`
kept by `Sanitizer.sanitizeCategory` (`\w` = ASCII word characters, the
three Japanese ranges, hyphen, underscore, and `\s` whitespace). -/
def allowedCategoryChar (c : Char) : Bool :=
  (('a' ≤ c && c ≤ 'z') || ('A' ≤ c && c ≤ 'Z') || ('0' ≤ c && c ≤ '9') || c = '_') ||
  (('぀' ≤ c && c ≤ 'ゟ') || ('゠' ≤ c && c ≤ 'ヿ') ||
   ('一' ≤ c && c ≤ '龯')) ||
  (c = '-') ||
  (c = ' ' || c = '\t' || c = '\n' || c = '\r' || c = '\x0b' || c = '\x0c' ||
   c = ' ' || c = ' ' || (' ' ≤ c && c ≤ ' ') ||
   c = ' ' || c = ' ' || c = ' ' || c = ' ' ||
   c = '　' || c = '﻿')

/-- The whitespace removed by JS `String.prototype.trim`. -/
def jsSpace (c : Char) : Bool :=
  c = ' ' || c = '\t' || c = '\n' || c = '\r' || c = '\x0b' || c = '\x0c' ||
  c = ' ' || c = ' ' || (' ' ≤ c && c ≤ ' ') ||
  c = ' ' || c = ' ' || c = ' ' || c = ' ' ||
  c = '　' || c = '﻿'

/-- JS `trim()`: drop leading and trailing whitespace. -/
def jsTrim (s : String) : String :=
  ⟨((s.data.dropWhile jsSpace).reverse.dropWhile jsSpace).reverse⟩

/-- `Sanitizer.sanitizeCategory`: falsy input gives `''`; otherwise strip
HTML, drop every character outside the allowed class, truncate to 50
characters (`substring(0, 50)`) and trim. -/
def sanitizeCategory (category : String) : String :=
  if category = "" then ""
  else
    let s1 := sanitizeHTML category
    let s2 := s1.data.filter allowedCategoryChar
    let s3 := s2.take 50
    jsTrim ⟨s3⟩

/-- `Sanitizer.sanitizeDescription`: falsy input gives `''`; otherwise
strip HTML, truncate to `MAX_DESCRIPTION_LENGTH` and trim. -/
def sanitizeDescription (description : String) : String :=
  if description = "" then ""
  else
    let s1 := sanitizeHTML description
    let s2 := if s1.data.length > CONSTANTS.MAX_DESCRIPTION_LENGTH then
        ⟨s1.data.take CONSTANTS.MAX_DESCRIPTION_LENGTH⟩
      else s1
    jsTrim s2

/-- `Math.round` of JavaScript: round half towards `+∞`, that is
`⌊q + 1/2⌋`, computed on the fraction `(2·num + den) / (2·den)` so that
the kernel can evaluate it (see `jsRound_eq_floor`). -/
def jsRound (q : ℚ) : ℤ :=
  (Rat.divInt (2 * q.num + (q.den : ℤ)) (2 * (q.den : ℤ))).floor

/-- `Sanitizer.sanitizeAmount`: a non-numeric amount (`parseFloat`
producing `NaN`, modelled as `none`) becomes `0`; numbers below
`MIN_AMOUNT` are clamped up to `MIN_AMOUNT`, numbers above `MAX_AMOUNT`
are clamped down to `MAX_AMOUNT`, and the remaining numbers are rounded
to whole yen. -/
def sanitizeAmount (amount : Option ℚ) : ℤ :=
  match amount with
  | none => 0
  | some numAmount =>
    if numAmount < (CONSTANTS.MIN_AMOUNT : ℚ) then CONSTANTS.MIN_AMOUNT
    else if numAmount > (CONSTANTS.MAX_AMOUNT : ℚ) then CONSTANTS.MAX_AMOUNT
    else jsRound numAmount

def isDigitChar (c : Char) : Bool := '0' ≤ c && c ≤ '9'

def digitVal (c : Char) : ℕ := c.toNat - '0'.toNat

/-- Gregorian leap year, as computed by the JS `Date` built-in. -/
def isLeapYear (y : ℕ) : Bool := (y % 4 = 0 && y % 100 ≠ 0) || y % 400 = 0

def daysInMonth (y m : ℕ) : ℕ :=
  if m = 2 then (if isLeapYear y then 29 else 28)
  else if m = 4 || m = 6 || m = 9 || m = 11 then 30
  else 31

/-- `Sanitizer.sanitizeDate`: falsy input gives `''`; otherwise strip
HTML, require the exact shape `\d{4}-\d{2}-\d{2}`, require `new Date(s)`
to parse (ISO parsing rejects out-of-range months and days), and require
the year to lie in `[MIN_YEAR, MAX_YEAR]`; on success the sanitized
string itself is returned, else `''`. -/
def sanitizeDate (dateString : String) : String :=
  if dateString = "" then ""
  else
    let s := sanitizeHTML dateString
    match s.data with
    | [y1, y2, y3, y4, d1, m1, m2, d2, dd1, dd2] =>
      if isDigitChar y1 && isDigitChar y2 && isDigitChar y3 && isDigitChar y4 &&
         d1 = '-' && isDigitChar m1 && isDigitChar m2 &&
         d2 = '-' && isDigitChar dd1 && isDigitChar dd2 then
        let y := 1000 * digitVal y1 + 100 * digitVal y2 + 10 * digitVal y3 + digitVal y4
        let m := 10 * digitVal m1 + digitVal m2
        let d := 10 * digitVal dd1 + digitVal dd2
        if 1 ≤ m && m ≤ 12 && 1 ≤ d && d ≤ daysInMonth y m then
          if CONSTANTS.MIN_YEAR ≤ y && y ≤ CONSTANTS.MAX_YEAR then s else ""
        else ""
      else ""
    | _ => ""

/-- A raw transaction record as it reaches
`Sanitizer.validateAndSanitizeTransaction` (form input, import row or a
merged update).  A missing/undefined field is the empty string
(respectively `none` for the amount). -/
structure Draft where
  date : String
  type : String
  category : String
  amount : Option ℚ
  description : String
deriving Repr, DecidableEq

/-- The `sanitizedData` object built by
`Sanitizer.validateAndSanitizeTransaction`.  A key the source leaves
absent (because its field failed validation) is modelled by the sanitized
value computed on the way, which is `''` (resp. the out-of-range amount)
exactly in those cases; callers only read `sanitizedData` when
`isValid`. -/
structure SanitizedTx where
  date : String
  type : String
  category : String
  amount : ℤ
  description : String
deriving Repr, DecidableEq

structure ValidationResult where
  isValid : Bool
  sanitizedData : SanitizedTx
  errors : List String
deriving Repr, DecidableEq

def amountErrorMessage : String := "金額は1円以上で入力してください"

/-- `Sanitizer.validateAndSanitizeTransaction`: validate/sanitize each
field, collecting error messages in field order (date, type, category,
amount); the record is valid when no error was collected. -/
def validateAndSanitizeTransaction (t : Draft) : ValidationResult :=
  let sanitizedDate := sanitizeDate t.date
  let dateErrors := if sanitizedDate = "" then ["有効な日付を入力してください"] else []
  let typeOk := t.type ≠ "" && CONSTANTS.TRANSACTION_TYPE_VALUES.contains t.type
  let typeErrors := if typeOk then [] else ["取引種類を選択してください"]
  let sanitizedCategory := sanitizeCategory t.category
  let catErrors := if sanitizedCategory = "" then ["カテゴリを入力してください"] else []
  let sanitizedAmount := sanitizeAmount t.amount
  let amountErrors := if sanitizedAmount < CONSTANTS.MIN_AMOUNT then [amountErrorMessage] else []
  let errors := dateErrors ++ typeErrors ++ catErrors ++ amountErrors
  { isValid := errors.isEmpty
    sanitizedData :=
      { date := sanitizedDate
        type := if typeOk then t.type else ""
        category := sanitizedCategory
        amount := sanitizedAmount
        description := sanitizeDescription t.description }
    errors := errors }

end Sanitizer

/-! ## Data model (`src/assets/js/data/dataManager.js`, class
`HouseholdBudgetData`) -/

/-- A stored transaction record. -/
structure Transaction where
  id : String
  date : String
  type : String
  category : String
  amount : ℤ
  description : String
  createdAt : String
  updatedAt : String
deriving Repr, DecidableEq

/-- The `updates` object of `updateTransaction(id, updates)`: a partial
record spread over the current one (`{ ...currentTransaction, ...updates }`);
`none` means the key is absent and the current value is kept. -/
structure TxPatch where
  date : Option String := none
  type : Option String := none
  category : Option String := none
  amount : Option (Option ℚ) := none
  description : Option String := none
deriving Repr, DecidableEq

/-- `{ ...currentTransaction, ...updates }` presented to the validator. -/
def mergeDraft (cur : Transaction) (p : TxPatch) : Sanitizer.Draft :=
  { date := p.date.getD cur.date
    type := p.type.getD cur.type
    category := p.category.getD cur.category
    amount := p.amount.getD (some (cur.amount : ℚ))
    description := p.description.getD cur.description }

/-- `this.filters` — `''` in a field means the criterion is disabled. -/
structure Filters where
  type : String
  category : String
  month : String
deriving Repr, DecidableEq

/-- Argument of `applyFilters(filters)`: spread over the stored filters,
`none` meaning the key is absent. -/
structure FilterPatch where
  type : Option String := none
  category : Option String := none
  month : Option String := none
deriving Repr, DecidableEq

/-- `{ ...this.filters, ...filters }` -/
def mergeFilters (cur : Filters) (p : FilterPatch) : Filters :=
  { type := p.type.getD cur.type
    category := p.category.getD cur.category
    month := p.month.getD cur.month }

/-- `this.categories` — one ordered name list per transaction type. -/
structure Categories where
  income : List String
  expense : List String
deriving Repr, DecidableEq

/-- `this.categories[type]` (`[]` for a key outside the two types, which
the source never stores). -/
def getCats (c : Categories) (type : String) : List String :=
  if type = CONSTANTS.INCOME then c.income
  else if type = CONSTANTS.EXPENSE then c.expense
  else []

/-- `this.categories[type] = v` -/
def setCats (c : Categories) (type : String) (v : List String) : Categories :=
  if type = CONSTANTS.INCOME then { c with income := v }
  else if type = CONSTANTS.EXPENSE then { c with expense := v }
  else c

/-- `DEFAULT_CATEGORIES` of `src/unnamed/part_001`. -/
def DEFAULT_CATEGORIES : Categories :=
  { income := ["給与", "ボーナス", "副業", "投資", "その他収入"]
    expense := ["食費", "交通費", "光熱費", "通信費", "娯楽",
                "医療費", "衣服", "日用品", "その他支出"] }

/-- `this.stats`; `lastModified` starts as `null` (`none`) and
`oldestTransaction`/`newestTransaction` are absent (`none`) until the
first `updateStats()` over a nonempty collection. -/
structure Stats where
  totalTransactions : ℕ
  lastModified : Option String
  createdAt : String
  oldestTransaction : Option String
  newestTransaction : Option String
deriving Repr, DecidableEq

/-- `{ ...this.stats, ...data.stats }`: keys present in `data.stats`
override, absent keys keep the current value. -/
def mergeStats (old new : Stats) : Stats :=
  { totalTransactions := new.totalTransactions
    lastModified := new.lastModified
    createdAt := new.createdAt
    oldestTransaction := match new.oldestTransaction with
      | some v => some v
      | none => old.oldestTransaction
    newestTransaction := match new.newestTransaction with
      | some v => some v
      | none => old.newestTransaction }

/-- The object computed by `calculateSummary()`.  The two averages are
JS float divisions, modelled exactly over `ℚ`. -/
structure Summary where
  income : ℤ
  expense : ℤ
  balance : ℤ
  transactionCount : ℕ
  avgIncome : ℚ
  avgExpense : ℚ
deriving Repr, DecidableEq

/-- One `{income, expense}` cell of the monthly map. -/
structure MonthEntry where
  income : ℤ
  expense : ℤ
deriving Repr, DecidableEq

/-- The in-memory fields of a `HouseholdBudgetData` instance.  The
`dbManager`, `isInitialized` flag and event listeners are collaborator
plumbing with no influence on the in-memory data semantics modelled
here. -/
structure LedgerState where
  transactions : List Transaction
  filteredTransactions : List Transaction
  idCounter : ℕ
  categories : Categories
  filters : Filters
  summaryCache : Option Summary
  lastSummaryUpdate : Option ℕ
  monthlyDataCache : List (String × List (String × MonthEntry))
  stats : Stats
deriving Repr, DecidableEq

/-- The constructor state of `HouseholdBudgetData`. -/
def initialState (createdAt : String) : LedgerState :=
  { transactions := []
    filteredTransactions := []
    idCounter := 1
    categories := DEFAULT_CATEGORIES
    filters := { type := "", category := "", month := "" }
    summaryCache := none
    lastSummaryUpdate := none
    monthlyDataCache := []
    stats :=
      { totalTransactions := 0
        lastModified := none
        createdAt := createdAt
        oldestTransaction := none
        newestTransaction := none } }

/-- The errors thrown by the ledger methods (`throw new Error(...)`),
keyed by their message shape. -/
inductive LedgerError where
  /-- `addTransaction`/`updateTransaction`: `validation.errors.join('\n')` -/
  | validationFailed (errors : List String)
  /-- `updateTransaction`: 「トランザクションが見つかりません」 -/
  | notFound
  /-- `addTransactionsBatch`: 「有効なトランザクションがありません…」 -/
  | noValidTransactions (errors : List String)
  /-- `removeCategory`: `CATEGORY_IN_USE` with the affected count -/
  | categoryInUse (count : ℕ)
  /-- `addCategory`: 「有効なカテゴリ名を入力してください」 -/
  | categoryInvalidName
  /-- `addCategory`: `CATEGORY_EXISTS` -/
  | categoryExists
deriving Repr, DecidableEq

/-- Decidable equality of `Except` results, so that concrete runs of the
fallible operations can be checked by evaluation. -/
instance {ε α : Type} [DecidableEq ε] [DecidableEq α] :
    DecidableEq (Except ε α) := fun
  | .ok a, .ok b =>
    decidable_of_iff (a = b)
      ⟨fun h => by rw [h], fun h => by injection h⟩
  | .ok _, .error _ => isFalse (fun h => Except.noConfusion h)
  | .error _, .ok _ => isFalse (fun h => Except.noConfusion h)
  | .error a, .error b =>
    decidable_of_iff (a = b)
      ⟨fun h => by rw [h], fun h => by injection h⟩

/-! ## Ledger operations (`src/assets/js/data/dataManager.js`)

Each method is a pure function on `LedgerState`; a fallible method
returns `Except LedgerError α × LedgerState` — the state component is
the in-memory state after the call, which equals the input state when
the method throws, since every `throw` in the source happens before any
mutation. -/

/-- `new Date(dateString).toISOString()` for a valid `YYYY-MM-DD`
string: ISO date-only strings parse as UTC midnight. -/
def dateToISOTimestamp (d : String) : String := d ++ "T00:00:00.000Z"

/-- Lexicographic minimum of the transaction dates
(`new Date(Math.min(...dates))`; on the validated `YYYY-MM-DD` strings
timestamp order and lexicographic order agree). -/
def minDateOf (txs : List Transaction) : String :=
  match txs.map (fun t => t.date) with
  | [] => ""
  | d :: ds => ds.foldl (fun a b => if b.data ≤ a.data then b else a) d

def maxDateOf (txs : List Transaction) : String :=
  match txs.map (fun t => t.date) with
  | [] => ""
  | d :: ds => ds.foldl (fun a b => if a.data ≤ b.data then b else a) d

/-- `updateStats()`: recompute `totalTransactions`, stamp `lastModified`,
and (for a nonempty collection) recompute the oldest/newest transaction
timestamps. -/
def statsUpdate (now : String) (txs : List Transaction) (st : Stats) : Stats :=
  let st1 := { st with totalTransactions := txs.length, lastModified := some now }
  if txs.length > 0 then
    { st1 with
      oldestTransaction := some (dateToISOTimestamp (minDateOf txs))
      newestTransaction := some (dateToISOTimestamp (maxDateOf txs)) }
  else st1

def updateStatsF (now : String) (s : LedgerState) : LedgerState :=
  { s with stats := statsUpdate now s.transactions s.stats }

/-- `invalidateCache()`: clear the summary cache, its count fingerprint
and the whole monthly cache. -/
def invalidateCacheF (s : LedgerState) : LedgerState :=
  { s with summaryCache := none, lastSummaryUpdate := none, monthlyDataCache := [] }

/-- `addTransaction(transactionData)` with the fresh id and the current
timestamp passed explicitly.  On validation failure it throws before any
mutation; on success the new record is appended, the caches are
invalidated and the stats refreshed.  (The IndexedDB write, the
localStorage fallback and the auto-backup touch only external storage.) -/
def addTransaction (transactionData : Sanitizer.Draft) (id now : String)
    (s : LedgerState) : Except LedgerError Transaction × LedgerState :=
  let validation := Sanitizer.validateAndSanitizeTransaction transactionData
  if validation.isValid then
    let transaction : Transaction :=
      { id := id
        date := validation.sanitizedData.date
        type := validation.sanitizedData.type
        category := validation.sanitizedData.category
        amount := validation.sanitizedData.amount
        description := validation.sanitizedData.description
        createdAt := now
        updatedAt := now }
    let s1 := { s with transactions := s.transactions ++ [transaction] }
    (.ok transaction, updateStatsF now (invalidateCacheF s1))
  else
    (.error (.validationFailed validation.errors), s)

/-- Replace the record at `findIndex(t => t.id === id)` — i.e. the first
record with this id — by `newTx`. -/
def replaceFirstById (id : String) (newTx : Transaction) :
    List Transaction → List Transaction
  | [] => []
  | t :: ts => if t.id = id then newTx :: ts else t :: replaceFirstById id newTx ts

/-- Remove the record at `findIndex(t => t.id === id)` (`splice(index, 1)`). -/
def removeFirstById (id : String) : List Transaction → List Transaction
  | [] => []
  | t :: ts => if t.id = id then ts else t :: removeFirstById id ts

/-- `updateTransaction(id, updates)`: look up the record, validate the
merged record (not the patch alone), and on success replace it in place,
keeping the id and the original `createdAt`. -/
def updateTransaction (id : String) (updates : TxPatch) (now : String)
    (s : LedgerState) : Except LedgerError Transaction × LedgerState :=
  match s.transactions.find? (fun t => t.id = id) with
  | none => (.error .notFound, s)
  | some currentTransaction =>
    let validation :=
      Sanitizer.validateAndSanitizeTransaction (mergeDraft currentTransaction updates)
    if validation.isValid then
      let updatedTransaction : Transaction :=
        { id := id
          date := validation.sanitizedData.date
          type := validation.sanitizedData.type
          category := validation.sanitizedData.category
          amount := validation.sanitizedData.amount
          description := validation.sanitizedData.description
          createdAt := currentTransaction.createdAt
          updatedAt := now }
      let s1 := { s with transactions := replaceFirstById id updatedTransaction s.transactions }
      (.ok updatedTransaction, updateStatsF now (invalidateCacheF s1))
    else
      (.error (.validationFailed validation.errors), s)

/-- `deleteTransaction(id)`: splice out the first record with this id;
return `null` — with no mutation at all — when the id is absent. -/
def deleteTransaction (id : String) (now : String) (s : LedgerState) :
    Option Transaction × LedgerState :=
  match s.transactions.find? (fun t => t.id = id) with
  | none => (none, s)
  | some deleted =>
    let s1 := { s with transactions := removeFirstById id s.transactions }
    (some deleted, updateStatsF now (invalidateCacheF s1))

/-- The per-row loop of `addTransactionsBatch`: validate each draft,
assigning the next fresh id to each valid one and recording
`行{i+1}: {errors}` for each invalid one. -/
def batchValidate (drafts : List Sanitizer.Draft) (ids : List String)
    (now : String) (i : ℕ) : List Transaction × List String :=
  match drafts with
  | [] => ([], [])
  | d :: rest =>
    let validation := Sanitizer.validateAndSanitizeTransaction d
    if validation.isValid then
      let tx : Transaction :=
        { id := ids.headD ""
          date := validation.sanitizedData.date
          type := validation.sanitizedData.type
          category := validation.sanitizedData.category
          amount := validation.sanitizedData.amount
          description := validation.sanitizedData.description
          createdAt := now
          updatedAt := now }
      let rec' := batchValidate rest ids.tail now (i + 1)
      (tx :: rec'.1, rec'.2)
    else
      let rec' := batchValidate rest ids now (i + 1)
      (rec'.1,
        ("行" ++ toString (i + 1) ++ ": " ++ String.intercalate ", " validation.errors)
          :: rec'.2)

/-- `addTransactionsBatch(transactions)`: validate every draft
independently; throw — before any mutation — when no draft is valid;
otherwise append all valid records as one batch and return
`{added, errors}`. -/
def addTransactionsBatch (drafts : List Sanitizer.Draft) (ids : List String)
    (now : String) (s : LedgerState) :
    Except LedgerError (List Transaction × List String) × LedgerState :=
  let validated := batchValidate drafts ids now 0
  let validTransactions := validated.1
  let errors := validated.2
  if validTransactions.length = 0 then
    (.error (.noValidTransactions errors), s)
  else
    let s1 := { s with transactions := s.transactions ++ validTransactions }
    (.ok (validTransactions, errors), updateStatsF now (invalidateCacheF s1))

/-- The sort relation of `applyFilters`: the comparator
`(a, b) => new Date(b.date) - new Date(a.date)` orders by date
descending (timestamp order agrees with lexicographic order on the
validated `YYYY-MM-DD` strings). -/
def dateDesc (a b : Transaction) : Prop := b.date.data ≤ a.date.data

instance : DecidableRel dateDesc :=
  fun a b => inferInstanceAs (Decidable (b.date.data ≤ a.date.data))

instance : IsTotal Transaction dateDesc := ⟨fun a b => le_total b.date.data a.date.data⟩

instance : IsTrans Transaction dateDesc := ⟨fun _ _ _ h1 h2 => le_trans h2 h1⟩

/-- The conjunction of the three filter criteria, each disabled by the
empty string. -/
def matchesFilters (f : Filters) (t : Transaction) : Bool :=
  (f.type = "" || t.type = f.type) &&
  (f.category = "" || t.category = f.category) &&
  (f.month = "" || f.month.data.isPrefixOf t.date.data)

/-- `applyFilters(filters)`: spread the patch over the stored filters,
rebuild the filtered view and sort it by date, descending (JS
`Array.prototype.sort` is stable; modelled by a stable sort). -/
def applyFilters (patch : FilterPatch) (s : LedgerState) : LedgerState :=
  let filters := mergeFilters s.filters patch
  let filtered := s.transactions.filter (fun t => matchesFilters filters t)
  { s with filters := filters
           filteredTransactions := List.insertionSort dateDesc filtered }

/-- The recomputation inside `calculateSummary()` (averages are `0` when
the corresponding kind has no records). -/
def computeSummary (txs : List Transaction) : Summary :=
  let incomeTxs := txs.filter (fun t => t.type = CONSTANTS.INCOME)
  let expenseTxs := txs.filter (fun t => t.type = CONSTANTS.EXPENSE)
  let income := incomeTxs.foldl (fun sum t => sum + t.amount) 0
  let expense := expenseTxs.foldl (fun sum t => sum + t.amount) 0
  { income := income
    expense := expense
    balance := income - expense
    transactionCount := txs.length
    avgIncome := if incomeTxs.length > 0 then Rat.divInt income incomeTxs.length else 0
    avgExpense := if expenseTxs.length > 0 then Rat.divInt expense expenseTxs.length else 0 }

/-- `calculateSummary()`: serve the cached record when the
transaction-count fingerprint still matches, else recompute and cache. -/
def calculateSummary (s : LedgerState) : Summary × LedgerState :=
  match s.summaryCache with
  | some cached =>
    if s.lastSummaryUpdate = some s.transactions.length then (cached, s)
    else
      let fresh := computeSummary s.transactions
      (fresh, { s with summaryCache := some fresh,
                       lastSummaryUpdate := some s.transactions.length })
  | none =>
    let fresh := computeSummary s.transactions
    (fresh, { s with summaryCache := some fresh,
                     lastSummaryUpdate := some s.transactions.length })

/-- `YYYY-MM` key of a (1-based) month, after JS `Date` month-overflow
normalization. -/
def monthKey (y m : ℤ) : String :=
  let idx := m - 1
  let y' := y + idx.fdiv 12
  let m' := idx.emod 12 + 1
  toString y' ++ "-" ++ (if m' < 10 then "0" else "") ++ toString m'

/-- Add an amount to the month cell holding `key`, when present
(`if (monthlyData.has(month)) ...`). -/
def bumpMonth (key : String) (isIncome : Bool) (amt : ℤ)
    (mm : List (String × MonthEntry)) : List (String × MonthEntry) :=
  mm.map (fun e =>
    if e.1 = key then
      (e.1, if isIncome then { e.2 with income := e.2.income + amt }
            else { e.2 with expense := e.2.expense + amt })
    else e)

/-- `getMonthlyData(months, endDate)` for a numeric month count (the
`'all'` branch is reached only from chart code paths outside the claims):
serve the cache for the `(months, end-month)` key, else initialise every
month in the window to zero, accumulate each transaction whose
`date.substring(0, 7)` falls in the window (any type other than income
counts as expense), and cache. -/
def getMonthlyData (months : ℕ) (endY endM : ℤ) (s : LedgerState) :
    List (String × MonthEntry) × LedgerState :=
  let cacheKey := toString months ++ "-" ++ monthKey endY endM
  match s.monthlyDataCache.lookup cacheKey with
  | some cached => (cached, s)
  | none =>
    let init : List (String × MonthEntry) :=
      (List.range months).map (fun j =>
        (monthKey endY (endM - ((months : ℤ) - 1 - (j : ℤ))), ⟨0, 0⟩))
    let monthlyData := s.transactions.foldl
      (fun mm t => bumpMonth ⟨t.date.data.take 7⟩ (t.type = CONSTANTS.INCOME) t.amount mm)
      init
    (monthlyData, { s with monthlyDataCache := s.monthlyDataCache ++ [(cacheKey, monthlyData)] })

/-- `addCategory(type, categoryName)`. -/
def addCategory (type categoryName : String) (s : LedgerState) :
    Except LedgerError Bool × LedgerState :=
  let sanitizedName := Sanitizer.sanitizeCategory categoryName
  if sanitizedName = "" then (.error .categoryInvalidName, s)
  else if (getCats s.categories type).contains sanitizedName then
    (.error .categoryExists, s)
  else
    (.ok true,
      { s with categories :=
          setCats s.categories type (getCats s.categories type ++ [sanitizedName]) })

/-- The in-memory effect of one fire-and-forget
`updateTransaction(t.id, { category: replacementCategory })` call inside
`removeCategory`: the synchronous part of `updateTransaction` runs to
completion before the next loop iteration, and a rejection of its
promise is swallowed. -/
def reassignOne (replacement now : String) (s : LedgerState) (tid : String) :
    LedgerState :=
  (updateTransaction tid { category := some replacement } now s).2

/-- `removeCategory(type, categoryName, replacementCategory)`: count the
transactions using the category; with users and no (or empty, hence
falsy) replacement, throw `CATEGORY_IN_USE` carrying the count; else
reassign every user to the replacement, then drop the name from the
registry. -/
def removeCategory (type categoryName : String) (replacementCategory : Option String)
    (now : String) (s : LedgerState) : Except LedgerError ℕ × LedgerState :=
  let relatedTransactions := s.transactions.filter
    (fun t => t.type = type && t.category = categoryName)
  let count := relatedTransactions.length
  if count > 0 && replacementCategory.getD "" = "" then
    (.error (.categoryInUse count), s)
  else
    let s1 :=
      if count > 0 then
        (relatedTransactions.map (fun t => t.id)).foldl
          (reassignOne (replacementCategory.getD "") now) s
      else s
    let newCats :=
      setCats s1.categories type
        ((getCats s1.categories type).filter (fun c => !(c = categoryName)))
    let s2 := { s1 with categories := newCats }
    (.ok count, s2)

/-- The object produced by `toSaveFormat()` and consumed by
`fromSaveFormat(data)`. -/
structure SaveFormat where
  version : String
  timestamp : String
  transactions : List Transaction
  categories : Categories
  idCounter : ℕ
  filters : Filters
  stats : Stats
deriving Repr, DecidableEq

def toSaveFormat (now : String) (s : LedgerState) : SaveFormat :=
  { version := "2.0.0"
    timestamp := now
    transactions := s.transactions
    categories := s.categories
    idCounter := s.idCounter
    filters := s.filters
    stats := s.stats }

/-- `fromSaveFormat(data)` on a complete save object: replace the
transactions and categories (`{ ...DEFAULT_CATEGORIES, ...data.categories }`
is `data.categories`, both keys being present), keep the current
`idCounter` when the saved one is `0` (falsy), spread the saved filters
and stats over the current ones, then invalidate the caches and rerun
`updateStats()` at the restore time. -/
def fromSaveFormat (data : SaveFormat) (now : String) (s : LedgerState) : LedgerState :=
  let s1 :=
    { s with
      transactions := data.transactions
      categories := data.categories
      idCounter := if data.idCounter ≠ 0 then data.idCounter else s.idCounter
      filters := mergeFilters s.filters
        { type := some data.filters.type
          category := some data.filters.category
          month := some data.filters.month }
      stats := mergeStats s.stats data.stats }
  updateStatsF now (invalidateCacheF s1)

/-- `clearAllData()` (in-memory part). -/
def clearAllData (now : String) (s : LedgerState) : LedgerState :=
  updateStatsF now (invalidateCacheF
    { s with transactions := [], filteredTransactions := [] })

/-! ## EventEmitter (`src/assets/js/data/eventEmitter.js`) -/

namespace EventEmitter

/-- A registered listener, abstracted by its observable behaviour on the
dispatched payload: `throws = some msg` means the listener function
throws that error when applied. -/
structure Listener where
  name : String
  throws : Option String
deriving Repr, DecidableEq

/-- What `emit` does, as an observable trace. -/
inductive TraceItem where
  /-- listener `lname` was applied to the payload of `event` -/
  | invoke (event lname : String)
  /-- the catch block re-emitted `msg` on the `error` topic, tagged with
  the originating event -/
  | errorPublished (msg : String) (event : String)
deriving Repr, DecidableEq

/-- `EventEmitter.emit(event)`: iterate over a snapshot
(`.slice()`) of the listener list; each listener is applied inside
`try/catch`, a throw is logged and re-emitted as
`this.emit('error', error, event)`, and iteration continues with the
next listener.  `fuel` bounds the re-emission depth (in the source a
throwing `error` listener recurses without bound). -/
def emit (fuel : ℕ) (events : String → List Listener) (event : String) :
    List TraceItem :=
  match fuel with
  | 0 => []
  | n + 1 =>
    (events event).flatMap (fun listener =>
      .invoke event listener.name ::
        match listener.throws with
        | some msg => .errorPublished msg event :: emit n events "error"
        | none => [])

end EventEmitter

/-! ## Reachable ledger states

The public mutation/query surface of `HouseholdBudgetData`, applied in
any order from the constructor state.  `restore` admits an arbitrary
save object, covering `loadData`/`loadFromLocalStorage`, which feed the
ledger whatever a previous session persisted. -/

inductive Reachable : LedgerState → Prop
  | init (createdAt : String) : Reachable (initialState createdAt)
  | add (d : Sanitizer.Draft) (id now : String) {s : LedgerState} :
      Reachable s → Reachable (addTransaction d id now s).2
  | update (id : String) (p : TxPatch) (now : String) {s : LedgerState} :
      Reachable s → Reachable (updateTransaction id p now s).2
  | delete (id now : String) {s : LedgerState} :
      Reachable s → Reachable (deleteTransaction id now s).2
  | batch (ds : List Sanitizer.Draft) (ids : List String) (now : String)
      {s : LedgerState} :
      Reachable s → Reachable (addTransactionsBatch ds ids now s).2
  | filters (p : FilterPatch) {s : LedgerState} :
      Reachable s → Reachable (applyFilters p s)
  | summary {s : LedgerState} :
      Reachable s → Reachable (calculateSummary s).2
  | monthly (months : ℕ) (endY endM : ℤ) {s : LedgerState} :
      Reachable s → Reachable (getMonthlyData months endY endM s).2
  | addCat (type name : String) {s : LedgerState} :
      Reachable s → Reachable (addCategory type name s).2
  | removeCat (type name : String) (repl : Option String) (now : String)
      {s : LedgerState} :
      Reachable s → Reachable (removeCategory type name repl now s).2
  | restore (data : SaveFormat) (now : String) {s : LedgerState} :
      Reachable s → Reachable (fromSaveFormat data now s)
  | clear (now : String) {s : LedgerState} :
      Reachable s → Reachable (clearAllData now s)

/-! ## Auxiliary definitions for the verification -/

/-- Coherence of the summary cache with its count fingerprint: whenever
`calculateSummary()` would serve the cache, the cached record is the one
a fresh recomputation would produce. -/
def cacheConsistent (s : LedgerState) : Prop :=
  ∀ c : Summary, s.summaryCache = some c →
    s.lastSummaryUpdate = some s.transactions.length →
    c = computeSummary s.transactions

/-- A stored record as produced by the validated add/update paths: a
nonempty date fixed by `sanitizeDate`, one of the two transaction types,
a nonempty category fixed by `sanitizeCategory`, an amount within the
validation bounds, and a description fixed by `sanitizeDescription`. -/
def validStored (t : Transaction) : Bool :=
  !(t.date = "") && Sanitizer.sanitizeDate t.date = t.date &&
  (t.type = CONSTANTS.INCOME || t.type = CONSTANTS.EXPENSE) &&
  !(t.category = "") && Sanitizer.sanitizeCategory t.category = t.category &&
  CONSTANTS.MIN_AMOUNT ≤ t.amount && t.amount ≤ CONSTANTS.MAX_AMOUNT &&
  Sanitizer.sanitizeDescription t.description = t.description

/-- The record `updateTransaction(t.id, { category: r })` writes back for
a stored record `t`: only the category and the `updatedAt` stamp
change. -/
def reassignTx (r now : String) (t : Transaction) : Transaction :=
  { t with category := r, updatedAt := now }

/-! Concrete data used to instantiate the theorems. -/

def sampleDraftIncome : Sanitizer.Draft :=
  { date := "2025-01-10", type := "income", category := "Salary"
    amount := some 300000, description := "" }

def sampleDraftExpense : Sanitizer.Draft :=
  { date := "2025-01-11", type := "expense", category := "Food"
    amount := some 1500, description := "" }

/-- A draft whose amount field is a negative number. -/
def sampleDraftNegative : Sanitizer.Draft :=
  { date := "2025-01-12", type := "expense", category := "Food"
    amount := some (-100), description := "" }

/-- A draft whose amount field is not numeric (`parseFloat` gives `NaN`). -/
def sampleDraftNaN : Sanitizer.Draft :=
  { date := "2025-01-12", type := "expense", category := "Food"
    amount := none, description := "" }

/-- The state after adding the two drafts of the specification's summary
scenario to a fresh ledger. -/
def sampleState : LedgerState :=
  (addTransaction sampleDraftExpense "id2" "t2"
    (addTransaction sampleDraftIncome "id1" "t1" (initialState "t0")).2).2

/-- The expense record stored in `sampleState`. -/
def sampleTxExpense : Transaction :=
  { id := "id2", date := "2025-01-11", type := "expense", category := "Food"
    amount := 1500, description := "", createdAt := "t2", updatedAt := "t2" }

/-- A ledger state holding two distinct records that share one id — the
shape `validateDataIntegrity()`/`repairData()` exist to detect, and which
`fromSaveFormat` accepts unchecked. -/
def dupIdState : LedgerState :=
  { initialState "t0" with
    transactions :=
      [{ id := "x", date := "2025-01-10", type := "income", category := "給与"
         amount := 100, description := "", createdAt := "t1", updatedAt := "t1" },
       { id := "x", date := "2025-01-11", type := "expense", category := "食費"
         amount := 200, description := "", createdAt := "t1", updatedAt := "t1" }] }

/-! ## Lemmas about the sanitizer -/

theorem ratFloor_eq_intFloor (x : ℚ) : x.floor = ⌊x⌋ :=
  (Rat.floor_def' x).trans Rat.floor_def.symm

/-- `jsRound` is `⌊q + 1/2⌋`. -/
theorem jsRound_eq_floor (q : ℚ) : Sanitizer.jsRound q = ⌊q + 1/2⌋ := by
  unfold Sanitizer.jsRound
  rw [ratFloor_eq_intFloor, Rat.divInt_eq_div]
  congr 1
  have hd : ((q.den : ℕ) : ℚ) ≠ 0 := by
    exact_mod_cast q.den_nz
  have key : (q.num : ℚ) = q * q.den := (div_eq_iff hd).mp (Rat.num_div_den q)
  push_cast
  field_simp
  rw [key]
  ring

theorem jsRound_intCast (n : ℤ) : Sanitizer.jsRound (n : ℚ) = n := by
  rw [jsRound_eq_floor, Int.floor_int_add]
  norm_num

/-- The rounded value stays inside `[lo, hi]` when the input does. -/
theorem jsRound_bounds {q : ℚ} {lo hi : ℤ}
    (h1 : (lo : ℚ) ≤ q) (h2 : q ≤ (hi : ℚ)) :
    lo ≤ Sanitizer.jsRound q ∧ Sanitizer.jsRound q ≤ hi := by
  rw [jsRound_eq_floor]
  constructor
  · calc lo = ⌊(lo : ℚ)⌋ := (Int.floor_intCast lo).symm
      _ ≤ ⌊q + 1/2⌋ := Int.floor_le_floor (by linarith)
  · calc ⌊q + 1/2⌋ ≤ ⌊(hi : ℚ) + 1/2⌋ := Int.floor_le_floor (by linarith)
      _ = hi := by rw [Int.floor_int_add]; norm_num

/-- Closed form of `sanitizeAmount` on numeric inputs: clamp to
`[MIN_AMOUNT, MAX_AMOUNT]`, rounding the values already in range. -/
theorem sanitizeAmount_some (q : ℚ) :
    Sanitizer.sanitizeAmount (some q) =
      if q < (CONSTANTS.MIN_AMOUNT : ℚ) then CONSTANTS.MIN_AMOUNT
      else if q > (CONSTANTS.MAX_AMOUNT : ℚ) then CONSTANTS.MAX_AMOUNT
      else ⌊q + 1/2⌋ := by
  simp only [Sanitizer.sanitizeAmount]
  split_ifs
  · rfl
  · rfl
  · exact jsRound_eq_floor q

/-- A numeric amount always sanitizes into the validation range. -/
theorem sanitizeAmount_some_bounds (q : ℚ) :
    CONSTANTS.MIN_AMOUNT ≤ Sanitizer.sanitizeAmount (some q) ∧
    Sanitizer.sanitizeAmount (some q) ≤ CONSTANTS.MAX_AMOUNT := by
  simp only [Sanitizer.sanitizeAmount]
  split_ifs with h1 h2
  · exact ⟨le_refl _, by decide⟩
  · exact ⟨by decide, le_refl _⟩
  · exact jsRound_bounds (not_lt.mp h1) (not_lt.mp h2)

/-- An integral amount already in range sanitizes to itself. -/
theorem sanitizeAmount_intCast {n : ℤ}
    (h1 : CONSTANTS.MIN_AMOUNT ≤ n) (h2 : n ≤ CONSTANTS.MAX_AMOUNT) :
    Sanitizer.sanitizeAmount (some (n : ℚ)) = n := by
  simp only [Sanitizer.sanitizeAmount]
  split_ifs with hlt hgt
  · exfalso
    have : n < CONSTANTS.MIN_AMOUNT := by exact_mod_cast hlt
    omega
  · exfalso
    have : CONSTANTS.MAX_AMOUNT < n := by exact_mod_cast hgt
    omega
  · exact jsRound_intCast n

/-- A non-numeric amount raises the amount error. -/
theorem validate_amount_error_of_none (d : Sanitizer.Draft)
    (hq : d.amount = none) :
    Sanitizer.amountErrorMessage ∈ (Sanitizer.validateAndSanitizeTransaction d).errors := by
  simp only [Sanitizer.validateAndSanitizeTransaction, hq]
  refine List.mem_append.mpr (Or.inr ?_)
  rw [if_pos (by decide)]
  exact List.mem_singleton.mpr rfl

/-- A numeric amount never raises the amount error (it is clamped into
range instead). -/
theorem validate_no_amount_error_of_some (d : Sanitizer.Draft) (q : ℚ)
    (hq : d.amount = some q) :
    Sanitizer.amountErrorMessage ∉ (Sanitizer.validateAndSanitizeTransaction d).errors := by
  simp only [Sanitizer.validateAndSanitizeTransaction, hq]
  intro hmem
  rcases List.mem_append.mp hmem with h | h
  · rcases List.mem_append.mp h with h | h
    · rcases List.mem_append.mp h with h | h
      · revert h
        split
        · intro h
          exact absurd (List.mem_singleton.mp h) (by decide)
        · exact List.not_mem_nil _
      · revert h
        split
        · exact List.not_mem_nil _
        · intro h
          exact absurd (List.mem_singleton.mp h) (by decide)
    · revert h
      split
      · intro h
        exact absurd (List.mem_singleton.mp h) (by decide)
      · exact List.not_mem_nil _
  · revert h
    rw [if_neg ?_]
    · exact List.not_mem_nil _
    · have := (sanitizeAmount_some_bounds q).1
      omega

/-- The `isValid` flag is exactly emptiness of the error list. -/
theorem validate_isValid_def (d : Sanitizer.Draft) :
    (Sanitizer.validateAndSanitizeTransaction d).isValid
      = (Sanitizer.validateAndSanitizeTransaction d).errors.isEmpty := rfl

/-- The sanitized amount is `sanitizeAmount` of the raw amount. -/
theorem validate_amount_def (d : Sanitizer.Draft) :
    (Sanitizer.validateAndSanitizeTransaction d).sanitizedData.amount
      = Sanitizer.sanitizeAmount d.amount := rfl

/-- A valid draft has no errors. -/
theorem validate_errors_nil_of_isValid (d : Sanitizer.Draft)
    (h : (Sanitizer.validateAndSanitizeTransaction d).isValid = true) :
    (Sanitizer.validateAndSanitizeTransaction d).errors = [] :=
  List.isEmpty_iff.mp ((validate_isValid_def d) ▸ h)

/-- A valid draft is non-`NaN` in the amount field. -/
theorem validate_isValid_amount_some (d : Sanitizer.Draft)
    (h : (Sanitizer.validateAndSanitizeTransaction d).isValid = true) :
    d.amount ≠ none := by
  intro hq
  have hmem := validate_amount_error_of_none d hq
  rw [validate_errors_nil_of_isValid d h] at hmem
  exact List.not_mem_nil _ hmem

/-- A valid draft's sanitized amount lies in `[MIN_AMOUNT, MAX_AMOUNT]`. -/
theorem validate_amount_bounds (d : Sanitizer.Draft)
    (h : (Sanitizer.validateAndSanitizeTransaction d).isValid = true) :
    CONSTANTS.MIN_AMOUNT ≤ (Sanitizer.validateAndSanitizeTransaction d).sanitizedData.amount ∧
    (Sanitizer.validateAndSanitizeTransaction d).sanitizedData.amount ≤ CONSTANTS.MAX_AMOUNT := by
  rcases hq : d.amount with _ | q
  · exact absurd hq (validate_isValid_amount_some d h)
  · rw [validate_amount_def, hq]
    exact sanitizeAmount_some_bounds q

/-! ## Cache coherence of `calculateSummary` -/

theorem cacheConsistent_of_invalidated {s : LedgerState}
    (h : s.summaryCache = none) : cacheConsistent s := by
  intro c hc
  rw [h] at hc
  exact absurd hc (by simp)

theorem cacheConsistent_addTransaction (d : Sanitizer.Draft) (id now : String)
    (s : LedgerState) (h : cacheConsistent s) :
    cacheConsistent (addTransaction d id now s).2 := by
  simp only [addTransaction]
  split
  · exact cacheConsistent_of_invalidated rfl
  · exact h

theorem cacheConsistent_updateTransaction (id : String) (p : TxPatch) (now : String)
    (s : LedgerState) (h : cacheConsistent s) :
    cacheConsistent (updateTransaction id p now s).2 := by
  simp only [updateTransaction]
  split
  · exact h
  · split
    · exact cacheConsistent_of_invalidated rfl
    · exact h

theorem cacheConsistent_deleteTransaction (id now : String)
    (s : LedgerState) (h : cacheConsistent s) :
    cacheConsistent (deleteTransaction id now s).2 := by
  simp only [deleteTransaction]
  split
  · exact h
  · exact cacheConsistent_of_invalidated rfl

theorem cacheConsistent_addTransactionsBatch (ds : List Sanitizer.Draft)
    (ids : List String) (now : String) (s : LedgerState) (h : cacheConsistent s) :
    cacheConsistent (addTransactionsBatch ds ids now s).2 := by
  simp only [addTransactionsBatch]
  split
  · exact h
  · exact cacheConsistent_of_invalidated rfl

theorem cacheConsistent_applyFilters (p : FilterPatch) (s : LedgerState)
    (h : cacheConsistent s) : cacheConsistent (applyFilters p s) := h

theorem cacheConsistent_calculateSummary (s : LedgerState) (h : cacheConsistent s) :
    cacheConsistent (calculateSummary s).2 := by
  simp only [calculateSummary]
  split
  · split
    · exact h
    · intro c' h1 h2
      exact (Option.some_inj.mp h1).symm
  · intro c' h1 h2
    exact (Option.some_inj.mp h1).symm

theorem cacheConsistent_getMonthlyData (months : ℕ) (endY endM : ℤ)
    (s : LedgerState) (h : cacheConsistent s) :
    cacheConsistent (getMonthlyData months endY endM s).2 := by
  simp only [getMonthlyData]
  split
  · exact h
  · exact h

theorem cacheConsistent_addCategory (ty name : String) (s : LedgerState)
    (h : cacheConsistent s) : cacheConsistent (addCategory ty name s).2 := by
  simp only [addCategory]
  split
  · exact h
  · split
    · exact h
    · exact h

theorem cacheConsistent_reassignOne (r now : String) (s : LedgerState)
    (tid : String) (h : cacheConsistent s) :
    cacheConsistent (reassignOne r now s tid) :=
  cacheConsistent_updateTransaction tid { category := some r } now s h

theorem cacheConsistent_foldl_reassign (r now : String) (ids : List String) :
    ∀ s : LedgerState, cacheConsistent s →
      cacheConsistent (ids.foldl (reassignOne r now) s) := by
  induction ids with
  | nil => intro s h; exact h
  | cons i rest ih =>
    intro s h
    exact ih _ (cacheConsistent_reassignOne r now s i h)

theorem cacheConsistent_removeCategory (ty name : String) (repl : Option String)
    (now : String) (s : LedgerState) (h : cacheConsistent s) :
    cacheConsistent (removeCategory ty name repl now s).2 := by
  simp only [removeCategory]
  split
  · exact h
  · split
    · exact cacheConsistent_foldl_reassign _ _ _ s h
    · exact h

theorem cacheConsistent_fromSaveFormat (data : SaveFormat) (now : String)
    (s : LedgerState) : cacheConsistent (fromSaveFormat data now s) :=
  cacheConsistent_of_invalidated rfl

theorem cacheConsistent_clearAllData (now : String) (s : LedgerState) :
    cacheConsistent (clearAllData now s) :=
  cacheConsistent_of_invalidated rfl

/-- Every reachable ledger state has a coherent summary cache. -/
theorem reachable_cacheConsistent {s : LedgerState} (h : Reachable s) :
    cacheConsistent s := by
  induction h with
  | init createdAt => exact cacheConsistent_of_invalidated rfl
  | add d id now _ ih => exact cacheConsistent_addTransaction d id now _ ih
  | update id p now _ ih => exact cacheConsistent_updateTransaction id p now _ ih
  | delete id now _ ih => exact cacheConsistent_deleteTransaction id now _ ih
  | batch ds ids now _ ih => exact cacheConsistent_addTransactionsBatch ds ids now _ ih
  | filters p _ ih => exact cacheConsistent_applyFilters p _ ih
  | summary _ ih => exact cacheConsistent_calculateSummary _ ih
  | monthly months endY endM _ ih => exact cacheConsistent_getMonthlyData months endY endM _ ih
  | addCat ty name _ ih => exact cacheConsistent_addCategory ty name _ ih
  | removeCat ty name repl now _ ih => exact cacheConsistent_removeCategory ty name repl now _ ih
  | restore data now _ _ => exact cacheConsistent_fromSaveFormat data now _
  | clear now _ _ => exact cacheConsistent_clearAllData now _

/-- On a cache-coherent state, `calculateSummary()` returns exactly the
fresh recomputation. -/
theorem calculateSummary_fst_eq (s : LedgerState) (h : cacheConsistent s) :
    (calculateSummary s).1 = computeSummary s.transactions := by
  simp only [calculateSummary]
  split
  · rename_i c hc
    split
    · rename_i hk
      exact h c hc hk
    · rfl
  · rfl

theorem foldl_add_amount (l : List Transaction) (a : ℤ) :
    l.foldl (fun sum t => sum + t.amount) a = a + (l.map (fun t => t.amount)).sum := by
  induction l generalizing a with
  | nil => simp
  | cons t ts ih => simp [ih, add_assoc]

theorem computeSummary_income (txs : List Transaction) :
    (computeSummary txs).income
      = ((txs.filter (fun t => t.type = CONSTANTS.INCOME)).map (fun t => t.amount)).sum := by
  simp only [computeSummary]
  rw [foldl_add_amount]
  simp

theorem computeSummary_expense (txs : List Transaction) :
    (computeSummary txs).expense
      = ((txs.filter (fun t => t.type = CONSTANTS.EXPENSE)).map (fun t => t.amount)).sum := by
  simp only [computeSummary]
  rw [foldl_add_amount]
  simp

/-- `sampleState` is reachable: two `addTransaction` calls from the
constructor state. -/
theorem sampleState_reachable : Reachable sampleState :=
  Reachable.add sampleDraftExpense "id2" "t2"
    (Reachable.add sampleDraftIncome "id1" "t1" (Reachable.init "t0"))

/-- C1: For every reachable ledger state, `calculateSummary()` returns a
record whose `income` field is the sum of the amounts of the stored
income transactions, whose `expense` field is the sum of the amounts of
the stored expense transactions, and whose `balance` field is income
minus expense. -/
theorem claim_C1_calculateSummary_totals (s : LedgerState) (h : Reachable s) :
    (calculateSummary s).1.income
        = ((s.transactions.filter (fun t => t.type = CONSTANTS.INCOME)).map
            (fun t => t.amount)).sum ∧
    (calculateSummary s).1.expense
        = ((s.transactions.filter (fun t => t.type = CONSTANTS.EXPENSE)).map
            (fun t => t.amount)).sum ∧
    (calculateSummary s).1.balance
        = (calculateSummary s).1.income - (calculateSummary s).1.expense := by
  refine ⟨?_, ?_, ?_⟩ <;>
    rw [calculateSummary_fst_eq s (reachable_cacheConsistent h)]
  · exact computeSummary_income _
  · exact computeSummary_expense _
  · rfl

/-- C1 witness: the specification's own scenario, a 300000 income and a
1500 expense, on a reachable state. -/
theorem claim_C1_witness :
    (calculateSummary sampleState).1.income = 300000 ∧
    (calculateSummary sampleState).1.expense = 1500 ∧
    (calculateSummary sampleState).1.balance = 298500 := by
  obtain ⟨h1, h2, h3⟩ := claim_C1_calculateSummary_totals sampleState sampleState_reachable
  refine ⟨h1.trans (by decide), h2.trans (by decide), ?_⟩
  rw [h3, h1, h2]
  decide

/-- C4: On every reachable state, `calculateSummary()` equals the fresh
recomputation from the current collection — the count-keyed cache is
never stale — and a successful `updateTransaction` (which never changes
the count) as well as a record-removing `deleteTransaction`
unconditionally clear the summary cache, its fingerprint, and the
monthly cache. -/
theorem claim_C4_summary_never_stale (s : LedgerState) (h : Reachable s) :
    (calculateSummary s).1 = computeSummary s.transactions ∧
    (∀ (id : String) (p : TxPatch) (now : String) (r : Transaction) (s' : LedgerState),
      updateTransaction id p now s = (.ok r, s') →
        s'.summaryCache = none ∧ s'.lastSummaryUpdate = none ∧
        s'.monthlyDataCache = []) ∧
    (∀ (id now : String) (t : Transaction) (s' : LedgerState),
      deleteTransaction id now s = (some t, s') →
        s'.summaryCache = none ∧ s'.lastSummaryUpdate = none ∧
        s'.monthlyDataCache = []) := by
  refine ⟨calculateSummary_fst_eq s (reachable_cacheConsistent h), ?_, ?_⟩
  · intro id p now r s' heq
    simp only [updateTransaction] at heq
    split at heq
    · simp at heq
    · split at heq
      · have h2 := congrArg Prod.snd heq
        dsimp at h2
        subst h2
        exact ⟨rfl, rfl, rfl⟩
      · simp at heq
  · intro id now t s' heq
    simp only [deleteTransaction] at heq
    split at heq
    · simp at heq
    · have h2 := congrArg Prod.snd heq
      dsimp at h2
      subst h2
      exact ⟨rfl, rfl, rfl⟩

/-- C4 witness: the never-stale equation instantiated on a concrete
reachable state. -/
theorem claim_C4_witness :
    (calculateSummary sampleState).1 = computeSummary sampleState.transactions :=
  (claim_C4_summary_never_stale sampleState sampleState_reachable).1

/-! ## Deleting twice (C6) -/

/-- After splicing out the first record with a given id from a
collection with pairwise-distinct ids, no record with that id remains. -/
theorem find?_removeFirstById_of_nodup (id : String) (l : List Transaction)
    (h : (l.map (fun t => t.id)).Nodup) :
    (removeFirstById id l).find? (fun t => t.id = id) = none := by
  induction l with
  | nil => rfl
  | cons t ts ih =>
    simp only [removeFirstById]
    rw [List.map_cons, List.nodup_cons] at h
    split
    · rename_i hid
      apply List.find?_eq_none.mpr
      intro x hx hpx
      apply h.1
      rw [List.mem_map]
      refine ⟨x, hx, ?_⟩
      have : x.id = id := by simpa using hpx
      rw [this, hid]
    · rename_i hid
      rw [List.find?_cons_of_neg _ (by simpa using hid)]
      exact ih h.2

/-- C6 (amended): on a ledger whose stored ids are pairwise distinct —
the documented id-uniqueness invariant — deleting an id twice equals
deleting it once: the second call finds nothing, returns `null`,
performs no mutation and cannot raise an error. -/
theorem claim_C6_delete_twice (s : LedgerState) (id now1 now2 : String)
    (h : (s.transactions.map (fun t => t.id)).Nodup) :
    deleteTransaction id now2 (deleteTransaction id now1 s).2
      = (none, (deleteTransaction id now1 s).2) := by
  cases hf : s.transactions.find? (fun t => t.id = id) with
  | none =>
    have h1 : deleteTransaction id now1 s = (none, s) := by
      simp only [deleteTransaction, hf]
    rw [h1]
    simp only [deleteTransaction, hf]
  | some t =>
    have h1 : deleteTransaction id now1 s
        = (some t, updateStatsF now1 (invalidateCacheF
            { s with transactions := removeFirstById id s.transactions })) := by
      simp only [deleteTransaction, hf]
    rw [h1]
    have hf2 := find?_removeFirstById_of_nodup id s.transactions h
    simp only [deleteTransaction, updateStatsF, invalidateCacheF, hf2]

/-- C6 witness: double deletion on a concrete two-record ledger with
distinct ids. -/
theorem claim_C6_witness :
    deleteTransaction "id1" "u2" (deleteTransaction "id1" "u1" sampleState).2
      = (none, (deleteTransaction "id1" "u1" sampleState).2) :=
  claim_C6_delete_twice sampleState "id1" "u1" "u2" (by decide)

/-- C6 counterexample: on a ledger state holding two records that share
the id `"x"` (constructible through `fromSaveFormat`, and the very shape
`validateDataIntegrity()` reports), the second `deleteTransaction("x")`
finds the second record and removes it, so two calls do not produce the
same collection as one call, and the second call is not a no-op. -/
theorem claim_C6_counterexample :
    ((deleteTransaction "x" "tB" (deleteTransaction "x" "tA" dupIdState).2).2.transactions
        ≠ (deleteTransaction "x" "tA" dupIdState).2.transactions) ∧
    (deleteTransaction "x" "tB" (deleteTransaction "x" "tA" dupIdState).2).1 ≠ none := by
  decide

/-! ## Snapshot round-trip (C7) -/

theorem mergeStats_self (st : Stats) : mergeStats st st = st := by
  rcases st with ⟨tt, lm, ca, old, nw⟩
  cases old <;> cases nw <;> rfl

/-- C7 (amended): restoring a freshly produced snapshot restores the
transaction collection, the category registry, the filters and the id
counter exactly; the stats are not restored verbatim but recomputed by
`updateStats()` at restore time (`lastModified` becomes the restore
timestamp, `totalTransactions` and the oldest/newest markers are
recomputed from the — unchanged — collection, `createdAt` is kept). -/
theorem claim_C7_roundtrip (s : LedgerState) (now1 now2 : String) :
    (fromSaveFormat (toSaveFormat now1 s) now2 s).transactions = s.transactions ∧
    (fromSaveFormat (toSaveFormat now1 s) now2 s).categories = s.categories ∧
    (fromSaveFormat (toSaveFormat now1 s) now2 s).filters = s.filters ∧
    (fromSaveFormat (toSaveFormat now1 s) now2 s).idCounter = s.idCounter ∧
    (fromSaveFormat (toSaveFormat now1 s) now2 s).stats
        = statsUpdate now2 s.transactions s.stats := by
  simp only [fromSaveFormat, toSaveFormat, updateStatsF, invalidateCacheF, mergeFilters]
  refine ⟨?_, ?_, ?_, ?_, ?_⟩ <;>
    first
      | trivial
      | (split <;> rfl)
      | rw [mergeStats_self]

/-- C7 counterexample: already on the empty constructor state, restoring
a snapshot at a later timestamp changes `stats.lastModified`, so the
restored stats differ from the stats at the moment the snapshot was
taken — the claimed "same stats" fails. -/
theorem claim_C7_counterexample :
    (fromSaveFormat (toSaveFormat "tSnap" (initialState "t0")) "tRestore"
        (initialState "t0")).stats
      ≠ (initialState "t0").stats := by
  decide

/-! ## Error containment in `emit` (C8) -/

/-- C8: during `emit`, every listener of the snapshot taken at emit time
is invoked — a throwing listener does not prevent the remaining ones from
running — and each thrown error is re-published on the `error` topic. -/
theorem claim_C8_emit_error_containment
    (events : String → List EventEmitter.Listener) (event : String)
    (fuel : ℕ) (hf : 1 ≤ fuel) :
    (∀ l ∈ events event,
      EventEmitter.TraceItem.invoke event l.name
        ∈ EventEmitter.emit fuel events event) ∧
    (∀ l ∈ events event, ∀ msg, l.throws = some msg →
      EventEmitter.TraceItem.errorPublished msg event
        ∈ EventEmitter.emit fuel events event) := by
  obtain ⟨n, rfl⟩ : ∃ n, fuel = n + 1 := ⟨fuel - 1, by omega⟩
  simp only [EventEmitter.emit]
  constructor
  · intro l hl
    exact List.mem_flatMap.mpr ⟨l, hl, List.mem_cons_self _ _⟩
  · intro l hl msg hmsg
    refine List.mem_flatMap.mpr ⟨l, hl, ?_⟩
    rw [hmsg]
    exact List.mem_cons_of_mem _ (List.mem_cons_self _ _)

/-- A concrete listener table: a throwing listener registered before a
well-behaved one on the same topic. -/
def sampleEvents : String → List EventEmitter.Listener :=
  fun e => if e = "dataChanged" then
    [{ name := "h1", throws := some "boom" }, { name := "h2", throws := none }]
  else []

/-- C8 witness: with `h1` throwing, `h2` still runs and the error is
re-published. -/
theorem claim_C8_witness :
    EventEmitter.TraceItem.invoke "dataChanged" "h2"
      ∈ EventEmitter.emit 1 sampleEvents "dataChanged" ∧
    EventEmitter.TraceItem.errorPublished "boom" "dataChanged"
      ∈ EventEmitter.emit 1 sampleEvents "dataChanged" := by
  have h := claim_C8_emit_error_containment sampleEvents "dataChanged" 1 (by decide)
  exact ⟨h.1 { name := "h2", throws := none } (by decide),
         h.2 { name := "h1", throws := some "boom" } (by decide) "boom" rfl⟩

/-! ## Amount sanitization invariant (C9) -/

/-- Every record produced by `batchValidate` carries an amount within
the validation bounds. -/
theorem batchValidate_amounts (ds : List Sanitizer.Draft) :
    ∀ (ids : List String) (now : String) (i : ℕ),
      ∀ tx ∈ (batchValidate ds ids now i).1,
        CONSTANTS.MIN_AMOUNT ≤ tx.amount ∧ tx.amount ≤ CONSTANTS.MAX_AMOUNT := by
  induction ds with
  | nil => intro ids now i tx htx; exact absurd htx (List.not_mem_nil _)
  | cons d rest ih =>
    intro ids now i tx htx
    simp only [batchValidate] at htx
    revert htx
    split
    · rename_i hv
      intro htx
      rcases List.mem_cons.mp htx with rfl | htx
      · exact validate_amount_bounds d hv
      · exact ih ids.tail now (i + 1) tx htx
    · intro htx
      exact ih ids now (i + 1) tx htx

/-- C9: every transaction accepted and stored by `addTransaction`,
`updateTransaction` or `addTransactionsBatch` has an integer amount in
`[1, 99999999]`: `sanitizeAmount` clamps numbers below 1 up to 1 and
numbers above 99999999 down to 99999999 and rounds the rest to the
nearest integer, so every numeric amount (negative or over-limit
included) is silently coerced into range and passes validation, and only
a non-numeric amount (`NaN`, coerced to 0) fails validation. -/
theorem claim_C9_amount_invariant :
    (∀ q : ℚ, Sanitizer.sanitizeAmount (some q)
        = if q < (CONSTANTS.MIN_AMOUNT : ℚ) then CONSTANTS.MIN_AMOUNT
          else if q > (CONSTANTS.MAX_AMOUNT : ℚ) then CONSTANTS.MAX_AMOUNT
          else ⌊q + 1/2⌋) ∧
    Sanitizer.sanitizeAmount none = 0 ∧
    (∀ d : Sanitizer.Draft, ∀ q : ℚ, d.amount = some q →
      Sanitizer.amountErrorMessage ∉ (Sanitizer.validateAndSanitizeTransaction d).errors) ∧
    (∀ d : Sanitizer.Draft, d.amount = none →
      (Sanitizer.validateAndSanitizeTransaction d).isValid = false) ∧
    (∀ d : Sanitizer.Draft, (Sanitizer.validateAndSanitizeTransaction d).isValid = true →
      CONSTANTS.MIN_AMOUNT ≤ (Sanitizer.validateAndSanitizeTransaction d).sanitizedData.amount ∧
      (Sanitizer.validateAndSanitizeTransaction d).sanitizedData.amount ≤ CONSTANTS.MAX_AMOUNT) ∧
    (∀ (d : Sanitizer.Draft) (id now : String) (s : LedgerState)
        (r : Transaction) (s' : LedgerState),
      addTransaction d id now s = (.ok r, s') →
        CONSTANTS.MIN_AMOUNT ≤ r.amount ∧ r.amount ≤ CONSTANTS.MAX_AMOUNT) ∧
    (∀ (id : String) (p : TxPatch) (now : String) (s : LedgerState)
        (r : Transaction) (s' : LedgerState),
      updateTransaction id p now s = (.ok r, s') →
        CONSTANTS.MIN_AMOUNT ≤ r.amount ∧ r.amount ≤ CONSTANTS.MAX_AMOUNT) ∧
    (∀ (ds : List Sanitizer.Draft) (ids : List String) (now : String) (s : LedgerState)
        (added : List Transaction) (errs : List String) (s' : LedgerState),
      addTransactionsBatch ds ids now s = (.ok (added, errs), s') →
        ∀ tx ∈ added,
          CONSTANTS.MIN_AMOUNT ≤ tx.amount ∧ tx.amount ≤ CONSTANTS.MAX_AMOUNT) := by
  refine ⟨sanitizeAmount_some, rfl, validate_no_amount_error_of_some, ?_, ?_, ?_, ?_, ?_⟩
  · intro d hq
    cases hv : (Sanitizer.validateAndSanitizeTransaction d).isValid with
    | false => rfl
    | true => exact absurd hq (validate_isValid_amount_some d hv)
  · exact validate_amount_bounds
  · intro d id now s r s' heq
    simp only [addTransaction] at heq
    split at heq
    · rename_i hv
      have h1 := congrArg Prod.fst heq
      dsimp at h1
      have h2 := Except.ok.inj h1
      rw [← h2]
      exact validate_amount_bounds d hv
    · simp at heq
  · intro id p now s r s' heq
    simp only [updateTransaction] at heq
    split at heq
    · simp at heq
    · split at heq
      · rename_i cur hv
        have h1 := congrArg Prod.fst heq
        dsimp at h1
        have h2 := Except.ok.inj h1
        rw [← h2]
        exact validate_amount_bounds _ hv
      · simp at heq
  · intro ds ids now s added errs s' heq
    simp only [addTransactionsBatch] at heq
    split at heq
    · simp at heq
    · have h1 := congrArg Prod.fst heq
      dsimp at h1
      have h2 := Except.ok.inj h1
      intro tx htx
      apply batchValidate_amounts ds ids now 0
      rw [show (batchValidate ds ids now 0).1 = added from congrArg Prod.fst h2]
      exact htx

/-- C9 witness: the invariant instantiated on a concrete valid draft. -/
theorem claim_C9_witness :
    CONSTANTS.MIN_AMOUNT ≤
      (Sanitizer.validateAndSanitizeTransaction sampleDraftIncome).sanitizedData.amount ∧
    (Sanitizer.validateAndSanitizeTransaction sampleDraftIncome).sanitizedData.amount ≤
      CONSTANTS.MAX_AMOUNT :=
  claim_C9_amount_invariant.2.2.2.2.1 sampleDraftIncome (by decide)

/-! ## Batch addition (C2) -/

/-- `batchValidate` produces one record per valid draft and one
`行{i}: …` message per invalid draft. -/
theorem batchValidate_counts (ds : List Sanitizer.Draft) :
    ∀ (ids : List String) (now : String) (i : ℕ),
      (batchValidate ds ids now i).1.length
          = (ds.filter (fun d => (Sanitizer.validateAndSanitizeTransaction d).isValid)).length ∧
      (batchValidate ds ids now i).2.length
          = (ds.filter (fun d => !(Sanitizer.validateAndSanitizeTransaction d).isValid)).length := by
  induction ds with
  | nil => intro ids now i; exact ⟨rfl, rfl⟩
  | cons d rest ih =>
    intro ids now i
    simp only [batchValidate, List.filter_cons]
    cases hv : (Sanitizer.validateAndSanitizeTransaction d).isValid with
    | true =>
      have h1 := (ih ids.tail now (i + 1)).1
      have h2 := (ih ids.tail now (i + 1)).2
      simp [hv, h1, h2]
    | false =>
      have h1 := (ih ids now (i + 1)).1
      have h2 := (ih ids now (i + 1)).2
      simp [hv, h1, h2]

/-- C2 (amended): `addTransactionsBatch` validates each draft
independently; every draft failing validation — and a finite numeric
amount never fails the amount check, since negative and over-limit
amounts are clamped into range; only a non-numeric amount does — is
collected as a per-row error and excluded; the remaining drafts are all
committed, so with three drafts of which exactly one has a *non-numeric*
amount and the other two are valid, the result reports 2 added and 1
error and the collection grows by exactly 2; the call throws if and only
if zero drafts are valid, in which case it mutates nothing. -/
theorem claim_C2_batch_report (ds : List Sanitizer.Draft) (ids : List String)
    (now : String) (s : LedgerState) :
    ((ds.filter (fun d => (Sanitizer.validateAndSanitizeTransaction d).isValid)).length ≠ 0 →
      Except.map (fun p => (p.1.length, p.2.length)) (addTransactionsBatch ds ids now s).1
        = .ok ((ds.filter (fun d => (Sanitizer.validateAndSanitizeTransaction d).isValid)).length,
            (ds.filter (fun d => !(Sanitizer.validateAndSanitizeTransaction d).isValid)).length) ∧
      (addTransactionsBatch ds ids now s).2.transactions.length
        = s.transactions.length
            + (ds.filter (fun d => (Sanitizer.validateAndSanitizeTransaction d).isValid)).length) ∧
    ((ds.filter (fun d => (Sanitizer.validateAndSanitizeTransaction d).isValid)).length = 0 →
      (addTransactionsBatch ds ids now s).1
          = .error (.noValidTransactions (batchValidate ds ids now 0).2) ∧
      (addTransactionsBatch ds ids now s).2 = s) ∧
    (∀ (d : Sanitizer.Draft) (q : ℚ), d.amount = some q →
      Sanitizer.amountErrorMessage ∉ (Sanitizer.validateAndSanitizeTransaction d).errors) := by
  have hc := batchValidate_counts ds ids now 0
  refine ⟨?_, ?_, validate_no_amount_error_of_some⟩
  · intro hne
    simp only [addTransactionsBatch]
    rw [if_neg (by rw [hc.1]; exact hne)]
    constructor
    · simp only [Except.map]
      rw [hc.1, hc.2]
    · simp only [updateStatsF, invalidateCacheF]
      rw [List.length_append, hc.1]
  · intro h0
    simp only [addTransactionsBatch]
    rw [if_pos (by rw [hc.1]; exact h0)]
    exact ⟨rfl, rfl⟩

/-- C2 witness: three drafts of which one has a non-numeric amount —
2 added, 1 per-row error, collection grows by 2. -/
theorem claim_C2_witness :
    Except.map (fun p => (p.1.length, p.2.length))
      (addTransactionsBatch [sampleDraftIncome, sampleDraftNaN, sampleDraftExpense]
        ["a", "b", "c"] "t" (initialState "t0")).1 = .ok (2, 1) ∧
    (addTransactionsBatch [sampleDraftIncome, sampleDraftNaN, sampleDraftExpense]
        ["a", "b", "c"] "t" (initialState "t0")).2.transactions.length
      = (initialState "t0").transactions.length + 2 := by
  have h := (claim_C2_batch_report [sampleDraftIncome, sampleDraftNaN, sampleDraftExpense]
    ["a", "b", "c"] "t" (initialState "t0")).1 (by decide)
  exact ⟨h.1.trans (by decide), h.2.trans (by decide)⟩

/-- C2 counterexample: three drafts of which exactly one has a
*negative* amount and the other two are valid.  The negative amount is
clamped to 1 and the draft accepted, so the call reports 3 added and 0
errors and the collection grows by 3 — not 2 added and 1 error as
claimed. -/
theorem claim_C2_counterexample :
    sampleDraftNegative.amount = some (-100) ∧
    (Sanitizer.validateAndSanitizeTransaction sampleDraftIncome).isValid = true ∧
    (Sanitizer.validateAndSanitizeTransaction sampleDraftExpense).isValid = true ∧
    Except.map (fun p => (p.1.length, p.2.length))
      (addTransactionsBatch [sampleDraftIncome, sampleDraftNegative, sampleDraftExpense]
        ["a", "b", "c"] "t" (initialState "t0")).1 = .ok (3, 0) ∧
    (addTransactionsBatch [sampleDraftIncome, sampleDraftNegative, sampleDraftExpense]
        ["a", "b", "c"] "t" (initialState "t0")).2.transactions.length
      = (initialState "t0").transactions.length + 3 := by
  decide

/-! ## In-place update (C5) -/

/-- Replacing by an id that no element carries is the identity. -/
theorem map_if_id_eq_self (id : String) (nt : Transaction) (l : List Transaction)
    (h : ∀ u ∈ l, u.id ≠ id) :
    l.map (fun t => if t.id = id then nt else t) = l := by
  induction l with
  | nil => rfl
  | cons t ts ih =>
    rw [List.map_cons, if_neg (h t (List.mem_cons_self t ts)),
      ih (fun u hu => h u (List.mem_cons_of_mem t hu))]

/-- On a collection with pairwise-distinct ids, replacing the first
record with a given id is a pointwise replacement. -/
theorem replaceFirstById_eq_map (id : String) (nt : Transaction)
    (l : List Transaction) (h : (l.map (fun t => t.id)).Nodup) :
    replaceFirstById id nt l = l.map (fun t => if t.id = id then nt else t) := by
  induction l with
  | nil => rfl
  | cons t ts ih =>
    rw [List.map_cons, List.nodup_cons] at h
    simp only [replaceFirstById, List.map_cons]
    by_cases hid : t.id = id
    · rw [if_pos hid, if_pos hid]
      congr 1
      refine (map_if_id_eq_self id nt ts ?_).symm
      intro u hu hui
      apply h.1
      rw [List.mem_map]
      exact ⟨u, hu, by rw [hui, hid]⟩
    · rw [if_neg hid, if_neg hid]
      congr 1
      exact ih h.2

/-- C5: `updateTransaction(id, patch)` throws `NotFound` — mutating
nothing — when no stored record has the id; otherwise it validates the
*merged* record (current record spread with the patch, not the patch
alone): on validation failure it throws with those errors and mutates
nothing, and on success it stores the sanitized merged record under the
same id with the original `createdAt`, leaving every other record
unchanged. -/
theorem claim_C5_updateTransaction_spec (s : LedgerState) (id : String)
    (p : TxPatch) (now : String) :
    ((∀ t ∈ s.transactions, t.id ≠ id) →
      updateTransaction id p now s = (.error .notFound, s)) ∧
    (∀ cur, s.transactions.find? (fun t => t.id = id) = some cur →
      ((Sanitizer.validateAndSanitizeTransaction (mergeDraft cur p)).isValid = false →
        updateTransaction id p now s
          = (.error (.validationFailed
              (Sanitizer.validateAndSanitizeTransaction (mergeDraft cur p)).errors), s)) ∧
      ((Sanitizer.validateAndSanitizeTransaction (mergeDraft cur p)).isValid = true →
        (updateTransaction id p now s).1
            = .ok
              { id := id
                date := (Sanitizer.validateAndSanitizeTransaction (mergeDraft cur p)).sanitizedData.date
                type := (Sanitizer.validateAndSanitizeTransaction (mergeDraft cur p)).sanitizedData.type
                category := (Sanitizer.validateAndSanitizeTransaction (mergeDraft cur p)).sanitizedData.category
                amount := (Sanitizer.validateAndSanitizeTransaction (mergeDraft cur p)).sanitizedData.amount
                description := (Sanitizer.validateAndSanitizeTransaction (mergeDraft cur p)).sanitizedData.description
                createdAt := cur.createdAt
                updatedAt := now } ∧
        ((s.transactions.map (fun t => t.id)).Nodup →
          (updateTransaction id p now s).2.transactions
            = s.transactions.map (fun t =>
                if t.id = id then
                  { id := id
                    date := (Sanitizer.validateAndSanitizeTransaction (mergeDraft cur p)).sanitizedData.date
                    type := (Sanitizer.validateAndSanitizeTransaction (mergeDraft cur p)).sanitizedData.type
                    category := (Sanitizer.validateAndSanitizeTransaction (mergeDraft cur p)).sanitizedData.category
                    amount := (Sanitizer.validateAndSanitizeTransaction (mergeDraft cur p)).sanitizedData.amount
                    description := (Sanitizer.validateAndSanitizeTransaction (mergeDraft cur p)).sanitizedData.description
                    createdAt := cur.createdAt
                    updatedAt := now }
                else t)))) := by
  constructor
  · intro h
    have hf : s.transactions.find? (fun t => t.id = id) = none :=
      List.find?_eq_none.mpr (fun x hx => by simpa using h x hx)
    simp only [updateTransaction, hf]
  · intro cur hfind
    simp only [updateTransaction, hfind]
    constructor
    · intro hv
      rw [if_neg (by rw [hv]; exact Bool.false_ne_true)]
    · intro hv
      rw [if_pos (by rw [hv])]
      refine ⟨rfl, ?_⟩
      intro hnodup
      simp only [updateStatsF, invalidateCacheF]
      exact replaceFirstById_eq_map id _ s.transactions hnodup

/-- C5 witness: a category-only patch on a concrete two-record ledger:
the merged record is re-validated, the record replaced in place with its
`createdAt` kept, and the other record untouched. -/
theorem claim_C5_witness :
    (updateTransaction "id2" { category := some "Dining" } "u9" sampleState).1
        = .ok
          { id := "id2", date := "2025-01-11", type := "expense", category := "Dining"
            amount := 1500, description := "", createdAt := "t2", updatedAt := "u9" } ∧
    (updateTransaction "id2" { category := some "Dining" } "u9" sampleState).2.transactions
        = [{ id := "id1", date := "2025-01-10", type := "income", category := "Salary"
             amount := 300000, description := "", createdAt := "t1", updatedAt := "t1" },
           { id := "id2", date := "2025-01-11", type := "expense", category := "Dining"
             amount := 1500, description := "", createdAt := "t2", updatedAt := "u9" }] := by
  have h := ((claim_C5_updateTransaction_spec sampleState "id2"
      { category := some "Dining" } "u9").2 sampleTxExpense (by decide)).2 (by decide)
  exact ⟨h.1.trans (by decide), (h.2 (by decide)).trans (by decide)⟩

/-! ## Category removal with reassignment (C3) -/

/-- Unpacked form of `validStored`. -/
theorem validStored_spec (t : Transaction) (h : validStored t = true) :
    (t.date ≠ "") ∧ Sanitizer.sanitizeDate t.date = t.date ∧
    (t.type = CONSTANTS.INCOME ∨ t.type = CONSTANTS.EXPENSE) ∧
    (t.category ≠ "") ∧ Sanitizer.sanitizeCategory t.category = t.category ∧
    CONSTANTS.MIN_AMOUNT ≤ t.amount ∧ t.amount ≤ CONSTANTS.MAX_AMOUNT ∧
    Sanitizer.sanitizeDescription t.description = t.description := by
  simp only [validStored, Bool.and_eq_true, Bool.or_eq_true, Bool.not_eq_true',
    decide_eq_true_eq, decide_eq_false_iff_not] at h
  tauto

/-- Re-validating a stored record whose category is replaced by a clean
nonempty name succeeds and sanitizes every field to itself. -/
theorem validate_merge_category (t : Transaction) (r : String)
    (ht : validStored t = true) (hr : Sanitizer.sanitizeCategory r = r)
    (hr0 : r ≠ "") :
    Sanitizer.validateAndSanitizeTransaction (mergeDraft t { category := some r })
      = { isValid := true
          sanitizedData :=
            { date := t.date, type := t.type, category := r
              amount := t.amount, description := t.description }
          errors := [] } := by
  obtain ⟨hd0, hdate, htype, hc0, _, hlo, hhi, hdesc⟩ := validStored_spec t ht
  have htypeOk : (decide (t.type ≠ "") &&
      CONSTANTS.TRANSACTION_TYPE_VALUES.contains t.type) = true := by
    rcases htype with h | h <;> rw [h] <;> decide
  simp only [Sanitizer.validateAndSanitizeTransaction, mergeDraft,
    Option.getD_none, Option.getD_some]
  simp only [hdate, hr, sanitizeAmount_intCast hlo hhi, hdesc, htypeOk]
  rw [if_neg hd0, if_neg hr0, if_neg (not_lt.mpr hlo)]
  simp

/-- Reassigning the category preserves `validStored`. -/
theorem validStored_reassignTx (r now : String) (t : Transaction)
    (ht : validStored t = true) (hr : Sanitizer.sanitizeCategory r = r)
    (hr0 : r ≠ "") : validStored (reassignTx r now t) = true := by
  obtain ⟨hd0, hdate, htype, _, _, hlo, hhi, hdesc⟩ := validStored_spec t ht
  simp only [validStored, reassignTx, Bool.and_eq_true, Bool.or_eq_true,
    Bool.not_eq_true', decide_eq_true_eq, decide_eq_false_iff_not]
  exact ⟨⟨⟨⟨⟨⟨⟨hd0, hdate⟩, by tauto⟩, hr0⟩, hr⟩, hlo⟩, hhi⟩, hdesc⟩

/-- Pointwise replacement at an id no element carries is the identity. -/
theorem map_if_id_fun_eq_self (id : String) (f : Transaction → Transaction)
    (l : List Transaction) (h : ∀ u ∈ l, u.id ≠ id) :
    l.map (fun t => if t.id = id then f t else t) = l := by
  induction l with
  | nil => rfl
  | cons t ts ih =>
    rw [List.map_cons, if_neg (h t (List.mem_cons_self t ts)),
      ih (fun u hu => h u (List.mem_cons_of_mem t hu))]

theorem reassignTx_id (r now : String) (t : Transaction) :
    (reassignTx r now t).id = t.id := rfl

theorem reassignTx_idem (r now : String) (t : Transaction) :
    reassignTx r now (reassignTx r now t) = reassignTx r now t := rfl

/-- Pointwise reassignment does not disturb the id column. -/
theorem map_id_of_reassign_map (r now tid : String) (l : List Transaction) :
    (l.map (fun t => if t.id = tid then reassignTx r now t else t)).map
        (fun t => t.id)
      = l.map (fun t => t.id) := by
  rw [List.map_map]
  apply List.map_congr_left
  intro a _
  simp only [Function.comp]
  by_cases hid : a.id = tid
  · rw [if_pos hid, reassignTx_id]
  · rw [if_neg hid]

/-- The in-memory effect of one swallowed
`updateTransaction(tid, { category: r })` call on a well-formed ledger:
the record with id `tid` — when present — gets category `r` and a fresh
`updatedAt`, everything else is untouched; an absent id leaves the
collection unchanged (the promise rejection is swallowed). -/
theorem reassignOne_spec (r now : String) (hr : Sanitizer.sanitizeCategory r = r)
    (hr0 : r ≠ "") (s : LedgerState) (tid : String)
    (hnodup : (s.transactions.map (fun t => t.id)).Nodup)
    (hwf : ∀ t ∈ s.transactions, validStored t = true) :
    (reassignOne r now s tid).transactions
        = s.transactions.map (fun t => if t.id = tid then reassignTx r now t else t) ∧
    (reassignOne r now s tid).categories = s.categories := by
  cases hf : s.transactions.find? (fun t => t.id = tid) with
  | none =>
    have hno : ∀ u ∈ s.transactions, u.id ≠ tid := by
      intro u hu
      have := List.find?_eq_none.mp hf u hu
      simpa using this
    have h1 : reassignOne r now s tid = s := by
      simp only [reassignOne, updateTransaction, hf]
    rw [h1, map_if_id_fun_eq_self _ _ _ hno]
    exact ⟨rfl, rfl⟩
  | some cur =>
    have hcur_mem := List.mem_of_find?_eq_some hf
    have hcur_id : cur.id = tid := by simpa using List.find?_some hf
    have hval := validate_merge_category cur r (hwf cur hcur_mem) hr hr0
    simp only [reassignOne, updateTransaction, hf, hval]
    rw [if_pos trivial]
    constructor
    · simp only [updateStatsF, invalidateCacheF]
      rw [replaceFirstById_eq_map tid _ s.transactions hnodup]
      apply List.map_congr_left
      intro a ha
      by_cases hid : a.id = tid
      · rw [if_pos hid, if_pos hid]
        have haeq : a = cur :=
          List.inj_on_of_nodup_map hnodup ha hcur_mem (by rw [hid, hcur_id])
        subst haeq
        simp only [reassignTx, Transaction.mk.injEq]
        refine ⟨hid.symm, ?_, ?_, ?_, ?_, ?_, ?_, ?_⟩ <;> trivial
      · rw [if_neg hid, if_neg hid]
    · rfl

/-- Effect of the whole fire-and-forget reassignment loop of
`removeCategory`: every record whose id occurs in the processed list is
reassigned to `r`, the rest — and the category registry — are
untouched. -/
theorem foldl_reassign_spec (r now : String) (hr : Sanitizer.sanitizeCategory r = r)
    (hr0 : r ≠ "") (ids : List String) :
    ∀ s : LedgerState,
      (s.transactions.map (fun t => t.id)).Nodup →
      (∀ t ∈ s.transactions, validStored t = true) →
      (ids.foldl (reassignOne r now) s).transactions
          = s.transactions.map
              (fun t => if t.id ∈ ids then reassignTx r now t else t) ∧
      (ids.foldl (reassignOne r now) s).categories = s.categories := by
  induction ids with
  | nil =>
    intro s _ _
    refine ⟨?_, rfl⟩
    symm
    simp
  | cons i rest ih =>
    intro s hn hw
    obtain ⟨ht1, hc1⟩ := reassignOne_spec r now hr hr0 s i hn hw
    have hn' : ((reassignOne r now s i).transactions.map (fun t => t.id)).Nodup := by
      rw [ht1, map_id_of_reassign_map]; exact hn
    have hw' : ∀ t ∈ (reassignOne r now s i).transactions, validStored t = true := by
      rw [ht1]
      intro t htm
      rcases List.mem_map.mp htm with ⟨a, ha, rfl⟩
      by_cases hid : a.id = i
      · rw [if_pos hid]; exact validStored_reassignTx r now a (hw a ha) hr hr0
      · rw [if_neg hid]; exact hw a ha
    obtain ⟨ht2, hc2⟩ := ih (reassignOne r now s i) hn' hw'
    rw [List.foldl_cons]
    constructor
    · rw [ht2, ht1, List.map_map]
      apply List.map_congr_left
      intro a _
      simp only [Function.comp]
      by_cases h1 : a.id = i
      · rw [if_pos h1]
        have hinner :
            (if (reassignTx r now a).id ∈ rest then
              reassignTx r now (reassignTx r now a) else reassignTx r now a)
              = reassignTx r now a := by
          by_cases h2 : (reassignTx r now a).id ∈ rest
          · rw [if_pos h2, reassignTx_idem]
          · rw [if_neg h2]
        rw [hinner, if_pos (by rw [h1]; exact List.mem_cons_self i rest)]
      · rw [if_neg h1]
        by_cases h2 : a.id ∈ rest
        · rw [if_pos h2, if_pos (List.mem_cons_of_mem i h2)]
        · rw [if_neg h2, if_neg (by
            intro hmem
            rcases List.mem_cons.mp hmem with h | h
            · exact h1 h
            · exact h2 h)]
    · rw [hc2, hc1]

/-- On a collection with pairwise-distinct ids, an id occurs among the
ids of the filtered records exactly when its record satisfies the
filter. -/
theorem mem_relatedIds_iff (ty name : String) (s : LedgerState)
    (hnodup : (s.transactions.map (fun t => t.id)).Nodup)
    (t : Transaction) (ht : t ∈ s.transactions) :
    t.id ∈ (s.transactions.filter
        (fun t => t.type = ty && t.category = name)).map (fun t => t.id)
      ↔ (t.type = ty && t.category = name) = true := by
  constructor
  · intro hmem
    rcases List.mem_map.mp hmem with ⟨u, hu, huid⟩
    have hul := List.mem_filter.mp hu
    have heq : u = t := List.inj_on_of_nodup_map hnodup hul.1 ht huid
    rw [← heq]
    exact hul.2
  · intro hp
    exact List.mem_map.mpr ⟨t, List.mem_filter.mpr ⟨ht, hp⟩, rfl⟩

/-- After `this.categories[type] = this.categories[type].filter(c => c !== name)`,
the name is gone from the registry entry for that type. -/
theorem name_notMem_setCats_filter (c : Categories) (ty name : String) :
    name ∉ getCats (setCats c ty
        ((getCats c ty).filter (fun x => !(x = name)))) ty := by
  simp only [getCats, setCats]
  split_ifs <;> simp [List.mem_filter]

/-- C3: with exactly `N ≥ 1` stored transactions of the given kind and
category, `removeCategory(kind, name)` without a replacement throws
`CategoryInUse` carrying `N` and mutates nothing; with a clean, distinct
replacement category not already used by transactions of that kind, it
reassigns exactly those `N` transactions to the replacement, leaves zero
transactions of that kind on the removed name, and removes the name from
the registry.  (Hypotheses: the stored records are well-formed and their
ids pairwise distinct — the ledger's documented invariants.) -/
theorem claim_C3_removeCategory (s : LedgerState) (ty name now : String) (N : ℕ)
    (hnodup : (s.transactions.map (fun t => t.id)).Nodup)
    (hwf : ∀ t ∈ s.transactions, validStored t = true)
    (hN : N = (s.transactions.filter
        (fun t => t.type = ty && t.category = name)).length)
    (hN1 : 1 ≤ N) :
    removeCategory ty name none now s = (.error (.categoryInUse N), s) ∧
    (∀ r : String, Sanitizer.sanitizeCategory r = r → r ≠ "" → r ≠ name →
      (∀ t ∈ s.transactions, ¬(t.type = ty ∧ t.category = r)) →
      (removeCategory ty name (some r) now s).1 = .ok N ∧
      ((removeCategory ty name (some r) now s).2.transactions.filter
          (fun t => t.type = ty && t.category = r)).length = N ∧
      ((removeCategory ty name (some r) now s).2.transactions.filter
          (fun t => t.type = ty && t.category = name)).length = 0 ∧
      name ∉ getCats (removeCategory ty name (some r) now s).2.categories ty) := by
  have hlen : 0 < (s.transactions.filter
      (fun t => t.type = ty && t.category = name)).length := by omega
  constructor
  · simp only [removeCategory, Option.getD_none]
    rw [if_pos (by simp [hlen]), hN]
  · intro r hrr hr0 hrne hno
    obtain ⟨hT, hC⟩ := foldl_reassign_spec r now hrr hr0
      ((s.transactions.filter
        (fun t => t.type = ty && t.category = name)).map (fun t => t.id))
      s hnodup hwf
    have hrem : removeCategory ty name (some r) now s
        = (.ok (s.transactions.filter
              (fun t => t.type = ty && t.category = name)).length,
           { (((s.transactions.filter
                  (fun t => t.type = ty && t.category = name)).map
                  (fun t => t.id)).foldl (reassignOne r now) s) with
             categories := setCats
               (((s.transactions.filter
                  (fun t => t.type = ty && t.category = name)).map
                  (fun t => t.id)).foldl (reassignOne r now) s).categories ty
               ((getCats (((s.transactions.filter
                  (fun t => t.type = ty && t.category = name)).map
                  (fun t => t.id)).foldl (reassignOne r now) s).categories ty).filter
                 (fun c => !(c = name))) }) := by
      simp only [removeCategory, Option.getD_some]
      rw [if_neg (by simp [hr0]), if_pos hlen]
    refine ⟨by rw [hrem, hN], ?_, ?_, ?_⟩
    · rw [hrem]
      dsimp only
      rw [hT, ← List.countP_eq_length_filter, List.countP_map, hN,
        ← List.countP_eq_length_filter]
      apply List.countP_congr
      intro a ha
      dsimp only [Function.comp]
      by_cases hp : (a.type = ty && a.category = name) = true
      · have hmem := (mem_relatedIds_iff ty name s hnodup a ha).mpr hp
        simp only [if_pos hmem]
        have h1 := (Bool.and_eq_true _ _).mp hp
        simp only [decide_eq_true_eq] at h1
        simp only [reassignTx, Bool.and_eq_true, decide_eq_true_eq]
        constructor
        · intro _
          exact ⟨h1.1, h1.2⟩
        · intro _
          exact ⟨h1.1, trivial⟩
      · have hmem : a.id ∉ (s.transactions.filter
            (fun t => t.type = ty && t.category = name)).map (fun t => t.id) :=
          fun hm => hp ((mem_relatedIds_iff ty name s hnodup a ha).mp hm)
        simp only [if_neg hmem]
        constructor
        · intro hR
          exfalso
          apply hno a ha
          have h2 := (Bool.and_eq_true _ _).mp hR
          simp only [decide_eq_true_eq] at h2
          exact h2
        · intro hP
          exact absurd hP hp
    · rw [hrem]
      dsimp only
      rw [hT, ← List.countP_eq_length_filter, List.countP_map]
      apply List.countP_eq_zero.mpr
      intro a ha
      dsimp only [Function.comp]
      by_cases hp : (a.type = ty && a.category = name) = true
      · have hmem := (mem_relatedIds_iff ty name s hnodup a ha).mpr hp
        simp only [if_pos hmem]
        simp [reassignTx, hrne]
      · have hmem : a.id ∉ (s.transactions.filter
            (fun t => t.type = ty && t.category = name)).map (fun t => t.id) :=
          fun hm => hp ((mem_relatedIds_iff ty name s hnodup a ha).mp hm)
        simp only [if_neg hmem]
        simpa using hp
    · rw [hrem]
      dsimp only
      rw [hC]
      exact name_notMem_setCats_filter s.categories ty name

/-- C3 witness: removing the in-use category `"Food"` (one expense
record) fails with `CategoryInUse 1` and no replacement, and succeeds
with replacement `"Dining"`, reassigning the one record. -/
theorem claim_C3_witness :
    removeCategory "expense" "Food" none "t9" sampleState
        = (.error (.categoryInUse 1), sampleState) ∧
    (removeCategory "expense" "Food" (some "Dining") "t9" sampleState).1 = .ok 1 ∧
    ((removeCategory "expense" "Food" (some "Dining") "t9" sampleState).2.transactions.filter
        (fun t => t.type = "expense" && t.category = "Dining")).length = 1 ∧
    ((removeCategory "expense" "Food" (some "Dining") "t9" sampleState).2.transactions.filter
        (fun t => t.type = "expense" && t.category = "Food")).length = 0 ∧
    "Food" ∉ getCats
        (removeCategory "expense" "Food" (some "Dining") "t9" sampleState).2.categories
        "expense" := by
  have h := claim_C3_removeCategory sampleState "expense" "Food" "t9" 1
    (by decide) (by decide) (by decide) (by decide)
  refine ⟨h.1, ?_⟩
  exact h.2 "Dining" (by decide) (by decide) (by decide) (by decide)

/-! ## Filter application (C10) -/

/-- The filter predicate decomposed: each criterion is enforced exactly
when its field is nonempty. -/
theorem matchesFilters_iff (f : Filters) (t : Transaction) :
    matchesFilters f t = true ↔
      ((f.type ≠ "" → t.type = f.type) ∧
       (f.category ≠ "" → t.category = f.category) ∧
       (f.month ≠ "" → f.month.data.isPrefixOf t.date.data = true)) := by
  simp only [matchesFilters, Bool.and_eq_true, Bool.or_eq_true, decide_eq_true_eq]
  tauto

/-- C10: `applyFilters(f)` merges `f` field by field onto the stored
filters (an absent field keeps its previous value, a field set to the
empty string disables that criterion), and the rebuilt filtered view
holds exactly the stored transactions meeting every enabled criterion —
type equality, category equality, and the date starting with the
`YYYY-MM` month — sorted by date in descending order. -/
theorem claim_C10_applyFilters (s : LedgerState) (p : FilterPatch) :
    (applyFilters p s).filters = mergeFilters s.filters p ∧
    (p.type = none → (applyFilters p s).filters.type = s.filters.type) ∧
    (∀ v, p.type = some v → (applyFilters p s).filters.type = v) ∧
    (p.category = none → (applyFilters p s).filters.category = s.filters.category) ∧
    (∀ v, p.category = some v → (applyFilters p s).filters.category = v) ∧
    (p.month = none → (applyFilters p s).filters.month = s.filters.month) ∧
    (∀ v, p.month = some v → (applyFilters p s).filters.month = v) ∧
    (∀ t, t ∈ (applyFilters p s).filteredTransactions ↔
      (t ∈ s.transactions ∧
        ((mergeFilters s.filters p).type ≠ "" →
          t.type = (mergeFilters s.filters p).type) ∧
        ((mergeFilters s.filters p).category ≠ "" →
          t.category = (mergeFilters s.filters p).category) ∧
        ((mergeFilters s.filters p).month ≠ "" →
          (mergeFilters s.filters p).month.data.isPrefixOf t.date.data = true))) ∧
    List.Sorted dateDesc (applyFilters p s).filteredTransactions := by
  refine ⟨rfl, ?_, ?_, ?_, ?_, ?_, ?_, ?_, ?_⟩
  · intro h; simp [applyFilters, mergeFilters, h]
  · intro v h; simp [applyFilters, mergeFilters, h]
  · intro h; simp [applyFilters, mergeFilters, h]
  · intro v h; simp [applyFilters, mergeFilters, h]
  · intro h; simp [applyFilters, mergeFilters, h]
  · intro v h; simp [applyFilters, mergeFilters, h]
  · intro t
    have hperm := List.perm_insertionSort dateDesc
      (s.transactions.filter
        (fun t => matchesFilters (mergeFilters s.filters p) t))
    simp only [applyFilters]
    rw [hperm.mem_iff, List.mem_filter, matchesFilters_iff]
  · simp only [applyFilters]
    exact List.sorted_insertionSort dateDesc _

/-- C10 witness: filtering `sampleState` by type `"expense"` retains the
expense record. -/
theorem claim_C10_witness :
    sampleTxExpense
      ∈ (applyFilters { type := some "expense" } sampleState).filteredTransactions := by
  have h := claim_C10_applyFilters sampleState { type := some "expense" }
  exact (h.2.2.2.2.2.2.2.1 sampleTxExpense).mpr
    ⟨by decide, by decide, by decide, by decide⟩

end HouseholdBudget
